import Mathlib

/-!
Shallow embedding of the batch media-conversion core of the `avcnv`
repository (files `src/avcnv/converter.py`, `src/avcnv/routes.py`,
`src/avcnv/models.py`).

Numeric progress values (Python floats) are modelled as rationals;
Python's `round(x, 2)` is modelled by `round2` (round-half-to-even at two
decimal places, the behaviour of Python's `round`).  Python dictionaries
keyed by task id are modelled as association lists with dictionary
lookup/erase semantics.  Diagnostic-stream lines (Python `str`) are
modelled as `List Char`.
-/

/-- Round-half-to-even to an integer, as Python's builtin `round` does. -/
def rhe (x : ℚ) : ℤ :=
  if x - Int.floor x < 1/2 then Int.floor x
  else if 1/2 < x - Int.floor x then Int.floor x + 1
  else if Even (Int.floor x) then Int.floor x else Int.floor x + 1

/-- Python's `round(x, 2)`: round to two decimal places, ties to even. -/
def round2 (x : ℚ) : ℚ := (rhe (x * 100) : ℚ) / 100

/-- `status` values of a file record (`models.py`, class `TaskStatus`). -/
inductive TaskStatus where
  | pending
  | processing
  | completed
  | failed
deriving DecidableEq

/-- File-source tag (`models.py`, class `FileSource`). -/
inductive FileSource where
  | upload
  | local
  | output
deriving DecidableEq

/-- One entry of the global process table: the observable state of an
`asyncio` subprocess handle — its `returncode` (`none` while running) and
whether calling `terminate()` on it would raise. -/
structure Proc where
  returncode : Option Int
  terminateRaises : Bool
deriving DecidableEq

/-- The global process table `_ACTIVE_PROCESSES` (`converter.py`), a dict
from task id to process handle, modelled as an association list with at
most one entry per key. -/
def Registry : Type := List (String × Proc)

instance : DecidableEq Registry := by
  unfold Registry
  infer_instance

/-- Dictionary lookup on the process table. -/
def lookupKey : Registry → String → Option Proc
  | [], _ => none
  | (k, p) :: r, tid => if k = tid then some p else lookupKey r tid

/-- Dictionary membership test (`task_id in _ACTIVE_PROCESSES`). -/
def containsKey (r : Registry) (tid : String) : Bool :=
  (lookupKey r tid).isSome

/-- Dictionary `del` (`del _ACTIVE_PROCESSES[task_id]`). -/
def eraseKey : Registry → String → Registry
  | [], _ => []
  | (k, p) :: r, tid => if k = tid then eraseKey r tid else (k, p) :: eraseKey r tid

/-- Observable effect of `terminate_task_processes` on the found process. -/
inductive TermEffect where
  | terminated
  | alreadyExited
  | raisedError
deriving DecidableEq

/-- `converter.terminate_task_processes`: if the task id is registered,
try to `terminate()` the process when it is still running (`returncode is
None`), swallow any exception the call raises, and in a `finally` block
delete the registry entry.  Returns the new registry and what happened to
the found process (`none` when the id was not registered). -/
def terminate_task_processes (reg : Registry) (tid : String) :
    Registry × Option TermEffect :=
  match lookupKey reg tid with
  | none => (reg, none)
  | some p =>
      let eff :=
        if p.returncode = none then
          if p.terminateRaises then TermEffect.raisedError else TermEffect.terminated
        else TermEffect.alreadyExited
      (eraseKey reg tid, some eff)

/-- Python truthiness of an `Optional[str]` value (`None` and `""` are
falsy). -/
def truthyStr : Option String → Bool
  | none => false
  | some s => if s = "" then false else true

/-- Tail of `converter.convert_audio` / `convert_video` after
`await process.wait()` (the two functions are textually identical here):
compute `was_terminated = task_id and task_id not in _ACTIVE_PROCESSES`,
delete the registry entry if still present, then classify — return code 0
gives `True` (success), otherwise an externally-removed registry entry
gives `None` (interrupted), otherwise `False` (failure); the decoded
diagnostic text `stderrText` is only logged, never returned. -/
def convert_finish (taskId : Option String) (reg : Registry) (rc : Int)
    (stderrText : String) : Option Bool × Registry :=
  let tid := taskId.getD ""
  let wasTerminated := truthyStr taskId && !(containsKey reg tid)
  let reg' := if truthyStr taskId && containsKey reg tid then eraseKey reg tid else reg
  if rc = 0 then (some true, reg')
  else if wasTerminated then (none, reg')
  else
    let _ := stderrText
    (some false, reg')

/-- Decimal digit character, as produced when printing a natural number. -/
def digitChar : ℕ → Char
  | 0 => '0'
  | 1 => '1'
  | 2 => '2'
  | 3 => '3'
  | 4 => '4'
  | 5 => '5'
  | 6 => '6'
  | 7 => '7'
  | 8 => '8'
  | _ => '9'

/-- Little-endian decimal digits of a natural number. -/
def natCharsRev : ℕ → List Char
  | 0 => []
  | n + 1 => digitChar ((n + 1) % 10) :: natCharsRev ((n + 1) / 10)
decreasing_by exact Nat.div_lt_self (Nat.succ_pos n) (by norm_num)

/-- Decimal representation of a natural number, most significant first. -/
def natChars (n : ℕ) : List Char :=
  if n = 0 then ['0'] else (natCharsRev n).reverse

/-- Numeric value of a digit character. -/
def dval (c : Char) : ℕ := c.toNat - 48

/-- Value of a most-significant-first digit-character list. -/
def readNat (cs : List Char) : ℕ :=
  cs.foldl (fun a c => 10 * a + dval c) 0

/-- Does the line start with `out_time_ms=` followed by at least one
digit?  (The anchored-at-this-position test of the regular expression
`out_time_ms=(\d+)` of `converter.parse_progress`.) -/
def hasMsKey : List Char → Bool
  | 'o' :: 'u' :: 't' :: '_' :: 't' :: 'i' :: 'm' :: 'e' :: '_' :: 'm' :: 's' :: '='
      :: c :: _ => c.isDigit
  | _ => false

/-- The maximal digit run following the `out_time_ms=` key at the head of
the line. -/
def msDigits : List Char → List Char
  | 'o' :: 'u' :: 't' :: '_' :: 't' :: 'i' :: 'm' :: 'e' :: '_' :: 'm' :: 's' :: '='
      :: rest => rest.takeWhile Char.isDigit
  | _ => []

/-- Leftmost-match search for `out_time_ms=(\d+)`, returning the matched
integer (microseconds). -/
def findOutTimeMs : List Char → Option ℕ
  | [] => none
  | c :: cs =>
      if hasMsKey (c :: cs) then some (readNat (msDigits (c :: cs)))
      else findOutTimeMs cs

/-- Does the line start with `time=` followed by `DD:DD:DD`?  (The
anchored test of the regular expression
`time=(\d{2}):(\d{2}):(\d{2}(?:\.\d+)?)`.) -/
def hasTimeKey : List Char → Bool
  | 't' :: 'i' :: 'm' :: 'e' :: '=' :: d1 :: d2 :: ':' :: d3 :: d4 :: ':' :: d5 :: d6
      :: _ =>
      d1.isDigit && d2.isDigit && d3.isDigit && d4.isDigit && d5.isDigit && d6.isDigit
  | _ => false

/-- The captured groups of a `time=HH:MM:SS[.frac]` match at the head of
the line: hours, minutes, integer seconds, fraction numerator and
fraction digit count (the optional group `(?:\.\d+)?` needs at least one
digit after the dot, and is greedy). -/
def timeParts : List Char → ℕ × ℕ × ℕ × ℕ × ℕ
  | 't' :: 'i' :: 'm' :: 'e' :: '=' :: d1 :: d2 :: ':' :: d3 :: d4 :: ':' :: d5 :: d6
      :: rest =>
      let h := dval d1 * 10 + dval d2
      let m := dval d3 * 10 + dval d4
      let ss := dval d5 * 10 + dval d6
      match rest with
      | '.' :: r =>
          if (r.headD 'x').isDigit then
            let ds := r.takeWhile Char.isDigit
            (h, m, ss, readNat ds, ds.length)
          else (h, m, ss, 0, 0)
      | _ => (h, m, ss, 0, 0)
  | _ => (0, 0, 0, 0, 0)

/-- Leftmost-match search for `time=(\d{2}):(\d{2}):(\d{2}(?:\.\d+)?)`. -/
def findTime : List Char → Option (ℕ × ℕ × ℕ × ℕ × ℕ)
  | [] => none
  | c :: cs =>
      if hasTimeKey (c :: cs) then some (timeParts (c :: cs))
      else findTime cs

/-- `converter.parse_progress`: parse one diagnostic line against a known
total duration.  A non-positive duration yields no result; then the
microsecond marker `out_time_ms=` is tried, then the human-readable
`time=HH:MM:SS[.frac]` marker; a found elapsed time is turned into a
percentage clamped at 100 and rounded to two decimals. -/
def parse_progress (line : List Char) (duration : ℚ) : Option ℚ :=
  if duration ≤ 0 then none
  else
    match findOutTimeMs line with
    | some micro =>
        some (round2 (min ((micro : ℚ) / 1000000 / duration * 100) 100))
    | none =>
        match findTime line with
        | some (h, m, ss, fnum, flen) =>
            let ct : ℚ := h * 3600 + m * 60 + ((ss : ℚ) + (fnum : ℚ) / 10 ^ flen)
            some (round2 (min (ct / duration * 100) 100))
        | none => none

/-- The canonical diagnostic line carrying the microsecond marker with
value `n`, `out_time_ms=<n>`. -/
def msLine (n : ℕ) : List Char :=
  'o' :: 'u' :: 't' :: '_' :: 't' :: 'i' :: 'm' :: 'e' :: '_' :: 'm' :: 's' :: '='
    :: natChars n

/-- One file's record inside a batch task (the per-file dict created in
`routes.convert` / `routes.resume_task`). -/
structure FileRec where
  filename : String
  status : TaskStatus
  progress : ℚ
  error : Option String
  output_file : Option String
  output_size : Option ℕ
deriving DecidableEq

instance : Inhabited FileRec :=
  ⟨{ filename := "", status := TaskStatus.pending, progress := 0, error := none,
     output_file := none, output_size := none }⟩

/-- One batch task's record (the `task_data` dict of `routes.py`). -/
structure BatchTask where
  task_id : String
  total_files : ℕ
  files : List FileRec
  overall_progress : ℚ
  stopped : Bool
  paused : Bool
  source : FileSource
deriving DecidableEq

/-- The conversion request (`models.ConvertRequest`). -/
structure ConvertRequest where
  files : List String
  source : FileSource
  output_format : String
  resolution : Option String
  video_bitrate : Option String
  video_codec : Option String
  frame_rate : Option String
  audio_bitrate : Option String
  sample_rate : Option String
  audio_channels : Option String
  audio_codec : Option String
  volume_adjust : Option String
deriving DecidableEq

/-- `sum(f["progress"] for f in files) / len(files)`: the arithmetic mean
of the per-file progress values (the source divides by the length with no
emptiness guard). -/
def meanProgress (files : List FileRec) : ℚ :=
  (files.map (fun f => f.progress)).sum / (files.length : ℚ)

/-- The initial per-file record created by `routes.convert` for each
submitted filename. -/
def initFile (filename : String) : FileRec :=
  { filename := filename, status := TaskStatus.pending, progress := 0, error := none,
    output_file := none, output_size := none }

/-- `routes.convert`: create the in-memory task record for a fresh batch
submission (one Pending/0 record per requested filename; the request's
`source` is saved on the task, its `output_format` is not). -/
def submit_task (tid : String) (req : ConvertRequest) : BatchTask :=
  { task_id := tid, total_files := req.files.length, files := req.files.map initFile,
    overall_progress := 0, stopped := false, paused := false, source := req.source }

/-- Update the `n`-th element of a list in place. -/
def updNth : List α → ℕ → (α → α) → List α
  | [], _, _ => []
  | x :: xs, 0, g => g x :: xs
  | x :: xs, n + 1, g => x :: updNth xs n g

/-- Read the `idx`-th file record of a task (the source indexes
`task_data["files"][idx]` only at in-range indices). -/
def getFile (t : BatchTask) (idx : ℕ) : FileRec :=
  (t.files.get? idx).getD default

/-- Replace the `idx`-th file record of a task by `g` applied to it. -/
def setFile (t : BatchTask) (idx : ℕ) (g : FileRec → FileRec) : BatchTask :=
  { t with files := updNth t.files idx g }

/-- The progress callback defined inside `routes.process_batch_convert`:
store the reported percentage on the file record and synchronously
recompute the task's overall progress as the rounded mean. -/
def applyCallback (t : BatchTask) (idx : ℕ) (p : ℚ) : BatchTask :=
  let files' := updNth t.files idx (fun f => { f with progress := p })
  { t with files := files', overall_progress := round2 (meanProgress files') }

/-- The per-file error message `routes.process_batch_convert` records
when `convert_file` returns `False` (the literal "转换失败"). -/
def convFailedMsg : String := "转换失败"

/-- Result of one `convert_file` call as seen by the batch loop: either
the converter's `Optional[bool]` return value (`some true` success,
`none` interrupted, `some false` failure) or an exception carrying its
message (e.g. a missing input path). -/
inductive ConvResult where
  | ok (r : Option Bool)
  | exc (msg : String)
deriving DecidableEq

/-- What the external world does during one iteration of the batch loop:
the progress percentages delivered to the callback while the encoder ran,
the conversion result, the computed output path and the probed output
byte size (when the output file exists). -/
structure IterSpec where
  callbacks : List ℚ
  result : ConvResult
  outPath : String
  outSize : Option ℕ
deriving DecidableEq

/-- One iteration of the loop body of `routes.process_batch_convert` for
a file that is neither skipped nor stopped: set the record to
Processing/0 (the overall progress is *not* recomputed here), deliver the
progress callbacks, then apply the conversion result — success marks
Completed/100 with output path and size after a final `callback(100)`;
`None` resets to Pending/0 and breaks the loop; `False` marks Failed with
the fixed message `convFailedMsg`; an exception marks Failed with the
exception text.  The returned Bool says whether the loop breaks. -/
def runIteration (t : BatchTask) (idx : ℕ) (spec : IterSpec) : BatchTask × Bool :=
  let t1 := setFile t idx
    (fun f => { f with status := TaskStatus.processing, progress := 0 })
  let t2 := spec.callbacks.foldl (fun acc p => applyCallback acc idx p) t1
  match spec.result with
  | ConvResult.ok (some true) =>
      let t3 := applyCallback t2 idx 100
      (setFile t3 idx (fun f =>
        { f with status := TaskStatus.completed, progress := 100,
                 output_file := some spec.outPath, output_size := spec.outSize }), false)
  | ConvResult.ok none =>
      (setFile t2 idx (fun f =>
        { f with status := TaskStatus.pending, progress := 0 }), true)
  | ConvResult.ok (some false) =>
      (setFile t2 idx (fun f =>
        { f with status := TaskStatus.failed, error := some convFailedMsg }), false)
  | ConvResult.exc msg =>
      (setFile t2 idx (fun f =>
        { f with status := TaskStatus.failed, error := some msg }), false)

/-- The recompute of the overall progress after the loop of
`routes.process_batch_convert` ends. -/
def finalize (t : BatchTask) : BatchTask :=
  { t with overall_progress := round2 (meanProgress t.files) }

/-- The task state right after a possible external stop event before the
check at iteration `idx` (`stopEvt idx = true` means an external actor —
Stop or Pause — set the task's stop flag there). -/
def stopApplied (stopEvt : ℕ → Bool) (idx : ℕ) (t : BatchTask) : BatchTask :=
  if stopEvt idx then { t with stopped := true } else t

/-- The driving loop of `routes.process_batch_convert` from index `idx`
with `k` indices left to visit.  `specs i` is the external behaviour of
iteration `i`.  The loop checks the stop flag, skips Completed files,
runs the iteration body, breaks on interruption, and on every exit path
recomputes the overall progress once more. -/
def runFrom (specs : ℕ → IterSpec) (stopEvt : ℕ → Bool) :
    ℕ → ℕ → BatchTask → BatchTask
  | 0, _, t => finalize t
  | k + 1, idx, t =>
      if (stopApplied stopEvt idx t).stopped then finalize (stopApplied stopEvt idx t)
      else if (getFile (stopApplied stopEvt idx t) idx).status = TaskStatus.completed then
        runFrom specs stopEvt k (idx + 1) (stopApplied stopEvt idx t)
      else if (runIteration (stopApplied stopEvt idx t) idx (specs idx)).2 then
        finalize (runIteration (stopApplied stopEvt idx t) idx (specs idx)).1
      else
        runFrom specs stopEvt k (idx + 1)
          (runIteration (stopApplied stopEvt idx t) idx (specs idx)).1

/-- `routes.process_batch_convert`: clear the stop flag, then drive every
file of the batch in list order. -/
def process_batch_convert (specs : ℕ → IterSpec) (stopEvt : ℕ → Bool)
    (t : BatchTask) : BatchTask :=
  runFrom specs stopEvt t.files.length 0 { t with stopped := false }

/-- `routes.pause_task` on an existing task: terminate the registered
process via `terminate_task_processes`, set the stop flag (and clear the
pause flag), reset every Processing file to Pending/0 leaving all other
files untouched, and recompute the overall progress as the rounded mean
of the new per-file values.  Returns the new registry, the new task
record, and the observable effect on the registered process. -/
def pause_task (reg : Registry) (t : BatchTask) :
    Registry × BatchTask × Option TermEffect :=
  let r := terminate_task_processes reg t.task_id
  let files' := t.files.map (fun f =>
    if f.status = TaskStatus.processing then
      { f with status := TaskStatus.pending, progress := 0 }
    else f)
  (r.1,
   { t with stopped := true, paused := false, files := files',
            overall_progress := round2 (meanProgress files') },
   r.2)

/-- `routes.stop_task` on an existing task: set the stop flag and clear
the pause flag; nothing else. -/
def stop_task (reg : Registry) (t : BatchTask) : Registry × BatchTask :=
  (reg, { t with stopped := true, paused := false })

/-- The file-list resynchronization at the start of `routes.resume_task`:
when the caller supplies a current filename list, keep only the records
whose filename is in it and append a fresh Pending record for every name
not already present, then update `total_files`; the overall progress is
*not* recomputed.  With no supplied list the task is unchanged. -/
def resume_sync (t : BatchTask) (current : Option (List String)) : BatchTask :=
  match current with
  | none => t
  | some names =>
      let backendNames := t.files.map (fun f => f.filename)
      let kept := t.files.filter (fun f => f.filename ∈ names)
      let newNames := names.filter (fun nm => nm ∉ backendNames)
      let files' := kept ++ newNames.map (fun nm =>
        { filename := nm, status := TaskStatus.pending, progress := 0, error := none,
          output_file := none, output_size := none })
      { t with files := files', total_files := files'.length }

/-- `Path(p).suffix.lstrip('.')` for a POSIX path string: the characters
after the last dot of the final path component, where that dot is neither
the component's first nor last character; empty otherwise. -/
def pathExt (p : List Char) : List Char :=
  let name := (p.reverse.takeWhile (fun c => c ≠ '/')).reverse
  let rev := name.reverse
  let pre := rev.takeWhile (fun c => c ≠ '.')
  if pre.length = rev.length then []
  else if pre.length = 0 then []
  else if pre.length + 1 = rev.length then []
  else pre.reverse

/-- The output-format inference of `routes.resume_task`: take the
extension of the first file record carrying a truthy `output_file`,
defaulting to `"mp4"` when there is none. -/
def resume_output_format (t : BatchTask) : String :=
  match t.files.find? (fun f => truthyStr f.output_file) with
  | some f => ⟨pathExt (f.output_file.getD "").data⟩
  | none => "mp4"

/-- `routes.resume_task` on an existing task, up to re-launching the
loop: resynchronize the file list, clear the stop and pause flags, read
the source tag saved on the task, infer the output format, and build the
`ConvertRequest` the re-launched loop will use (per-file options reset to
coarse defaults). -/
def resume_task (t : BatchTask) (current : Option (List String)) :
    BatchTask × ConvertRequest :=
  let t1 := resume_sync t current
  let t2 := { t1 with stopped := false, paused := false }
  (t2,
   { files := t2.files.map (fun f => f.filename), source := t2.source,
     output_format := resume_output_format t2, resolution := none,
     video_bitrate := none, video_codec := some "libx264", frame_rate := none,
     audio_bitrate := none, sample_rate := none, audio_channels := none,
     audio_codec := some "aac", volume_adjust := none })

/-- The fixed table of (source extension, target extension) pairs
`converter.convert_audio` treats as incompatible for bitstream copy. -/
def incompatible_combinations : List (String × String) :=
  [("wma", "mp3"), ("wma", "aac"), ("wma", "flac"), ("wma", "wav"),
   ("m4a", "mp3"), ("m4a", "wma"), ("aac", "mp3"), ("aac", "wma"),
   ("mp3", "aac"), ("mp3", "wma"), ("mp3", "flac"),
   ("flac", "mp3"), ("flac", "aac"), ("flac", "wma"),
   ("wav", "mp3"), ("wav", "aac"), ("wav", "wma"), ("wav", "flac")]

/-- The fixed advisory table of video copy pairs
`converter.convert_video` warns about. -/
def incompatible_video_combinations : List (String × String) :=
  [("avi", "mp4"), ("avi", "mkv"), ("avi", "mov"),
   ("mov", "avi"),
   ("wmv", "mp4"), ("wmv", "mkv"), ("wmv", "mov"), ("wmv", "avi")]

/-- `[flag, value]` when the optional parameter is truthy, else nothing. -/
def optArg (flag : String) (v : Option String) : List String :=
  if truthyStr v then [flag, v.getD ""] else []

/-- Outcome of the codec/copy-mode decision and command construction of
`converter.convert_audio`. -/
structure AudioPlan where
  codec : String
  is_copy_mode : Bool
  cmd : List String
deriving DecidableEq

/-- The codec/copy-mode decision and FFmpeg command construction of
`converter.convert_audio` (the pure head of the function).  `inputExt`
and `outputExt` are `Path(...).suffix.lstrip('.').lower()` of the input
and output paths.  Faithful to the source's three sequential rewrites:
(1) copy mode plus an incompatible pair forces re-encoding with a codec
from the target mapping; (2) outside copy mode the mp3 / m4a / aac
targets re-map the codec; (3) copy mode plus any truthy audio parameter
forces re-encoding with a codec from the target mapping. -/
def convert_audio_plan (ffmpeg inputFile outputFile : String)
    (inputExt outputExt : String)
    (bitrate sample_rate channels volume_adjust : Option String)
    (codec0 : String) : AudioPlan :=
  let is_copy0 := codec0 = "copy"
  let has_audio_params :=
    truthyStr bitrate || truthyStr sample_rate || truthyStr channels ||
      truthyStr volume_adjust
  let step1 :=
    if is_copy0 ∧ (inputExt, outputExt) ∈ incompatible_combinations then
      (false,
       if outputExt = "mp3" then "libmp3lame"
       else if outputExt = "aac" ∨ outputExt = "m4a" then "aac"
       else if outputExt = "flac" then "flac"
       else "aac")
    else (is_copy0, codec0)
  let codec2 :=
    if ¬ step1.1 then
      if outputExt = "mp3" then "libmp3lame"
      else if outputExt = "m4a" ∨ outputExt = "aac" then "aac"
      else step1.2
    else step1.2
  let step3 :=
    if step1.1 ∧ has_audio_params then
      (false,
       if outputExt = "mp3" then "libmp3lame"
       else if outputExt = "m4a" ∨ outputExt = "aac" then "aac"
       else "aac")
    else (step1.1, codec2)
  { codec := step3.2, is_copy_mode := step3.1,
    cmd :=
      [ffmpeg, "-i", inputFile] ++ ["-c:a", step3.2] ++
        (if ¬ step3.1 then
          optArg "-b:a" bitrate ++ optArg "-ar" sample_rate ++
            optArg "-ac" channels ++
            (if truthyStr volume_adjust then
              ["-af", "volume=" ++ volume_adjust.getD ""]
            else [])
        else []) ++
        ["-progress", "pipe:2"] ++ ["-y", outputFile] }

/-- Value of a little-endian digit-character list (proof helper for
`readNat`). -/
def valLE : List Char → ℕ
  | [] => 0
  | c :: r => dval c + 10 * valLE r

/-- The per-file progress-range invariant of the data model: every
file's progress percentage lies in `[0, 100]`. -/
def ProgressInv (t : BatchTask) : Prop :=
  ∀ f ∈ t.files, 0 ≤ f.progress ∧ f.progress ≤ 100

/-- Outcome of the codec/copy-mode decision and command construction of
`converter.convert_video`. -/
structure VideoPlan where
  video_codec : String
  is_copy_mode : Bool
  advisory_warning : Bool
  cmd : List String
deriving DecidableEq

/-- The codec/copy-mode decision and FFmpeg command construction of
`converter.convert_video`.  The incompatible-pair table is advisory only
(it produces a warning log, recorded here as `advisory_warning`, and
changes nothing else); copy mode plus any truthy video parameter forces
re-encoding with `libx264`. -/
def convert_video_plan (ffmpeg inputFile outputFile : String)
    (inputExt outputExt : String)
    (resolution video_bitrate : Option String) (video_codec0 : String)
    (audio_codec : String) (audio_bitrate frame_rate : Option String) : VideoPlan :=
  let is_copy0 := video_codec0 = "copy"
  let has_video_params :=
    truthyStr resolution || truthyStr video_bitrate || truthyStr frame_rate
  let warned := is_copy0 ∧ (inputExt, outputExt) ∈ incompatible_video_combinations
  let step :=
    if is_copy0 ∧ has_video_params then (false, "libx264") else (is_copy0, video_codec0)
  { video_codec := step.2, is_copy_mode := step.1,
    advisory_warning := decide warned,
    cmd :=
      [ffmpeg, "-i", inputFile] ++ ["-c:v", step.2] ++
        (if ¬ step.1 then
          optArg "-s" resolution ++ optArg "-b:v" video_bitrate ++
            optArg "-r" frame_rate
        else []) ++
        ["-c:a", audio_codec] ++
        (if audio_codec ≠ "copy" ∧ truthyStr audio_bitrate then
          ["-b:a", audio_bitrate.getD ""]
        else []) ++
        ["-progress", "pipe:2"] ++ ["-y", outputFile] }

/-! ## Concrete fixtures used by witnesses and counterexamples -/

/-- A two-entry process table whose first process is still running and
raises when terminated. -/
def regW : Registry :=
  [("a", { returncode := none, terminateRaises := true }),
   ("b", { returncode := some 0, terminateRaises := false })]

/-- A one-file mp3 conversion request. -/
def reqA : ConvertRequest :=
  { files := ["a.wma"], source := FileSource.upload, output_format := "mp3",
    resolution := none, video_bitrate := none, video_codec := some "libx264",
    frame_rate := none, audio_bitrate := none, sample_rate := none,
    audio_channels := none, audio_codec := some "aac", volume_adjust := none }

/-- The freshly submitted task of `reqA`. -/
def taskA : BatchTask := submit_task "tA" reqA

/-- A file record in the middle of processing. -/
def fileProc : FileRec :=
  { filename := "p.wma", status := TaskStatus.processing, progress := 40, error := none,
    output_file := none, output_size := none }

/-- A batch with one Processing file and one Pending file. -/
def taskB : BatchTask :=
  { task_id := "tB", total_files := 2, files := [fileProc, initFile "q.wma"],
    overall_progress := 20, stopped := false, paused := false,
    source := FileSource.upload }

/-- A registry holding `taskB`'s running process. -/
def regB : Registry := [("tB", { returncode := none, terminateRaises := false })]

/-- A completed file record with a recorded output path. -/
def fileDone : FileRec :=
  { filename := "a.mp3", status := TaskStatus.completed, progress := 100, error := none,
    output_file := some "outputs/a.mp3", output_size := some 123 }

/-- A paused batch whose single file already completed. -/
def task9 : BatchTask :=
  { task_id := "t9", total_files := 1, files := [fileDone], overall_progress := 100,
    stopped := true, paused := false, source := FileSource.upload }

/-- Iteration behaviour of a run whose encoder exits with code 1 while
still registered, emitting the diagnostic text `"boom"`. -/
def spec7 : IterSpec :=
  { callbacks := [],
    result := ConvResult.ok
      (convert_finish (some "tA")
        [("tA", { returncode := some 1, terminateRaises := false })] 1 "boom").1,
    outPath := "outputs/a.mp3", outSize := none }

/-- Iteration behaviour of a run that succeeds after one 50% callback. -/
def specOk : IterSpec :=
  { callbacks := [50], result := ConvResult.ok (some true),
    outPath := "outputs/a.mp3", outSize := some 77 }

/-! ## Helper lemmas -/

theorem rhe_nonneg {x : ℚ} (h : 0 ≤ x) : 0 ≤ rhe x := by
  have hf : (0 : ℤ) ≤ Int.floor x := Int.floor_nonneg.mpr h
  unfold rhe
  split
  · exact hf
  · split
    · omega
    · split
      · exact hf
      · omega

theorem rhe_le {x : ℚ} {N : ℤ} (h : x ≤ N) : rhe x ≤ N := by
  have hf : Int.floor x ≤ N := by simpa using Int.floor_le_floor h
  have hstep : ¬ x - (Int.floor x : ℚ) < 1/2 → Int.floor x + 1 ≤ N := by
    intro h1
    have hhalf : (1 : ℚ)/2 ≤ x - Int.floor x := not_lt.mp h1
    have hx : (Int.floor x : ℚ) < x := by linarith
    have : (Int.floor x : ℚ) < (N : ℚ) := lt_of_lt_of_le hx h
    have : Int.floor x < N := by exact_mod_cast this
    omega
  unfold rhe
  split
  · exact hf
  · rename_i h1
    split
    · exact hstep h1
    · split
      · exact hf
      · exact hstep h1

theorem round2_nonneg {x : ℚ} (h : 0 ≤ x) : 0 ≤ round2 x := by
  unfold round2
  have : (0 : ℤ) ≤ rhe (x * 100) := rhe_nonneg (by positivity)
  have h100 : (0 : ℚ) < 100 := by norm_num
  exact div_nonneg (by exact_mod_cast this) (le_of_lt h100)

theorem round2_le_100 {x : ℚ} (h : x ≤ 100) : round2 x ≤ 100 := by
  unfold round2
  have hx : x * 100 ≤ ((10000 : ℤ) : ℚ) := by push_cast; nlinarith
  have := rhe_le hx
  have hle : ((rhe (x * 100) : ℤ) : ℚ) ≤ (10000 : ℚ) := by exact_mod_cast this
  linarith

theorem round2_hundred : round2 (100 : ℚ) = 100 := by
  have hfl : Int.floor ((100 : ℚ) * 100) = 10000 := by norm_num
  unfold round2 rhe
  rw [hfl]
  norm_num

theorem lookupKey_eraseKey_self (r : Registry) (tid : String) :
    lookupKey (eraseKey r tid) tid = none := by
  induction r with
  | nil => rfl
  | cons kp r ih =>
      by_cases h : kp.1 = tid
      · simpa [eraseKey, h] using ih
      · simpa [eraseKey, lookupKey, h] using ih

theorem lookupKey_eraseKey_ne (r : Registry) (tid k : String) (h : k ≠ tid) :
    lookupKey (eraseKey r tid) k = lookupKey r k := by
  induction r with
  | nil => rfl
  | cons kp r ih =>
      rcases kp with ⟨k1, p1⟩
      by_cases h1 : k1 = tid
      · rw [eraseKey, if_pos h1, ih, lookupKey, if_neg]
        rw [h1]
        exact fun hh => h hh.symm
      · rw [eraseKey, if_neg h1, lookupKey, lookupKey]
        by_cases h2 : k1 = k
        · rw [if_pos h2, if_pos h2]
        · rw [if_neg h2, if_neg h2, ih]

theorem dval_digitChar {d : ℕ} (h : d < 10) : dval (digitChar d) = d := by
  interval_cases d <;> decide

theorem digitChar_isDigit (d : ℕ) : (digitChar d).isDigit = true := by
  unfold digitChar
  split <;> rfl

theorem valLE_natCharsRev (n : ℕ) : valLE (natCharsRev n) = n := by
  induction n using Nat.strong_induction_on with
  | _ n ih =>
      match n with
      | 0 => simp [natCharsRev, valLE]
      | m + 1 =>
          rw [natCharsRev, valLE,
            ih ((m + 1) / 10) (Nat.div_lt_self (Nat.succ_pos m) (by norm_num)),
            dval_digitChar (Nat.mod_lt _ (by norm_num))]
          exact Nat.mod_add_div (m + 1) 10

theorem foldl_digits (le : List Char) :
    ∀ a : ℕ, le.reverse.foldl (fun a c => 10 * a + dval c) a
      = a * 10 ^ le.length + valLE le := by
  induction le with
  | nil => intro a; simp [valLE]
  | cons c r ih =>
      intro a
      rw [List.reverse_cons, List.foldl_append]
      simp only [List.foldl_cons, List.foldl_nil, ih a, valLE, List.length_cons]
      ring

theorem readNat_natChars (n : ℕ) : readNat (natChars n) = n := by
  unfold natChars
  split
  · rename_i h
    subst h
    decide
  · rw [readNat, foldl_digits (natCharsRev n), valLE_natCharsRev]
    simp

theorem mem_natCharsRev_isDigit (n : ℕ) : ∀ c ∈ natCharsRev n, c.isDigit = true := by
  induction n using Nat.strong_induction_on with
  | _ n ih =>
      match n with
      | 0 => simp [natCharsRev]
      | m + 1 =>
          rw [natCharsRev]
          intro c hc
          rcases List.mem_cons.mp hc with h | h
          · rw [h]; exact digitChar_isDigit _
          · exact ih ((m + 1) / 10) (Nat.div_lt_self (Nat.succ_pos m) (by norm_num)) c h

theorem mem_natChars_isDigit (n : ℕ) : ∀ c ∈ natChars n, c.isDigit = true := by
  unfold natChars
  split
  · intro c hc
    simp only [List.mem_singleton] at hc
    rw [hc]; decide
  · intro c hc
    exact mem_natCharsRev_isDigit n c (List.mem_reverse.mp hc)

theorem natChars_ne_nil (n : ℕ) : natChars n ≠ [] := by
  unfold natChars
  split
  · simp
  · rename_i h
    cases n with
    | zero => exact absurd rfl h
    | succ m =>
        rw [natCharsRev]
        simp

theorem takeWhile_eq_self {α : Type} {p : α → Bool} :
    ∀ {l : List α}, (∀ c ∈ l, p c = true) → l.takeWhile p = l := by
  intro l
  induction l with
  | nil => intro _; rfl
  | cons c r ih =>
      intro h
      have hr := ih (fun x hx => h x (List.mem_cons_of_mem c hx))
      simp [List.takeWhile_cons, h c (List.mem_cons_self c r), hr]

theorem hasMsKey_explicit (c : Char) (rest : List Char) :
    hasMsKey ('o' :: 'u' :: 't' :: '_' :: 't' :: 'i' :: 'm' :: 'e' :: '_' :: 'm' :: 's'
      :: '=' :: c :: rest) = c.isDigit := rfl

theorem msDigits_explicit (rest : List Char) :
    msDigits ('o' :: 'u' :: 't' :: '_' :: 't' :: 'i' :: 'm' :: 'e' :: '_' :: 'm' :: 's'
      :: '=' :: rest) = rest.takeWhile Char.isDigit := rfl

theorem findOutTimeMs_msLine (n : ℕ) : findOutTimeMs (msLine n) = some n := by
  obtain ⟨c, ds, hcd⟩ := List.exists_cons_of_ne_nil (natChars_ne_nil n)
  have hdig : c.isDigit = true := by
    apply mem_natChars_isDigit n
    rw [hcd]; exact List.mem_cons_self c ds
  have h0 : msLine n
      = 'o' :: 'u' :: 't' :: '_' :: 't' :: 'i' :: 'm' :: 'e' :: '_' :: 'm' :: 's'
          :: '=' :: c :: ds := by
    rw [msLine, hcd]
  rw [h0, findOutTimeMs, hasMsKey_explicit, hdig, if_pos rfl, msDigits_explicit, ← hcd,
    takeWhile_eq_self (mem_natChars_isDigit n), readNat_natChars]

theorem min_one_mul_hundred (a : ℚ) : min a 1 * 100 = min (a * 100) 100 := by
  rcases le_total a 1 with h | h
  · rw [min_eq_left h, min_eq_left (by nlinarith)]
  · rw [min_eq_right h, min_eq_right (by nlinarith), one_mul]

theorem parse_progress_msLine (n : ℕ) (d : ℚ) (hd : 0 < d) :
    parse_progress (msLine n) d
      = some (round2 (min ((n : ℚ) / 1000000 / d * 100) 100)) := by
  unfold parse_progress
  rw [if_neg (not_le.mpr hd), findOutTimeMs_msLine]

theorem parse_progress_range {line : List Char} {d p : ℚ}
    (h : parse_progress line d = some p) : 0 ≤ p ∧ p ≤ 100 := by
  unfold parse_progress at h
  split at h
  · exact absurd h (by simp)
  · rename_i hd
    have hd' : 0 < d := lt_of_not_le hd
    cases hms : findOutTimeMs line with
    | some micro =>
        rw [hms] at h
        have hp : p = round2 (min ((micro : ℚ) / 1000000 / d * 100) 100) := by
          exact (Option.some.injEq _ _ ▸ h).symm
        have hx : (0 : ℚ) ≤ (micro : ℚ) / 1000000 / d * 100 := by positivity
        constructor
        · rw [hp]; exact round2_nonneg (le_min hx (by norm_num))
        · rw [hp]; exact round2_le_100 (min_le_right _ _)
    | none =>
        rw [hms] at h
        cases ht : findTime line with
        | some parts =>
            obtain ⟨hh, mm, ss, fnum, flen⟩ := parts
            rw [ht] at h
            simp only [Option.some.injEq] at h
            have hx : (0 : ℚ) ≤
                ((hh : ℚ) * 3600 + (mm : ℚ) * 60 + ((ss : ℚ) + (fnum : ℚ) / 10 ^ flen))
                  / d * 100 := by positivity
            constructor
            · rw [← h]; exact round2_nonneg (le_min hx (by norm_num))
            · rw [← h]; exact round2_le_100 (min_le_right _ _)
        | none =>
            rw [ht] at h
            exact absurd h (by simp)

theorem updNth_length {α : Type} (l : List α) (n : ℕ) (g : α → α) :
    (updNth l n g).length = l.length := by
  induction l generalizing n with
  | nil => rfl
  | cons x xs ih =>
      cases n with
      | zero => rfl
      | succ m => simpa [updNth] using ih m

theorem get?_updNth_self {α : Type} (l : List α) (n : ℕ) (g : α → α) :
    (updNth l n g).get? n = (l.get? n).map g := by
  induction l generalizing n with
  | nil => rfl
  | cons x xs ih =>
      cases n with
      | zero => rfl
      | succ m => simpa [updNth] using ih m

theorem get?_updNth_ne {α : Type} (l : List α) {n m : ℕ} (g : α → α) (h : m ≠ n) :
    (updNth l n g).get? m = l.get? m := by
  induction l generalizing n m with
  | nil => rfl
  | cons x xs ih =>
      cases n with
      | zero =>
          cases m with
          | zero => exact absurd rfl h
          | succ j => rfl
      | succ i =>
          cases m with
          | zero => rfl
          | succ j => simpa [updNth] using ih (fun hh => h (by rw [hh]))

theorem mem_updNth {α : Type} {l : List α} {n : ℕ} {g : α → α} {a : α}
    (h : a ∈ updNth l n g) : a ∈ l ∨ ∃ b ∈ l, a = g b := by
  induction l generalizing n with
  | nil => exact absurd h (by simp [updNth])
  | cons x xs ih =>
      cases n with
      | zero =>
          rcases List.mem_cons.mp h with h1 | h1
          · exact Or.inr ⟨x, List.mem_cons_self x xs, h1⟩
          · exact Or.inl (List.mem_cons_of_mem x h1)
      | succ m =>
          rcases List.mem_cons.mp h with h1 | h1
          · exact Or.inl (h1 ▸ List.mem_cons_self x xs)
          · rcases ih h1 with h2 | ⟨b, hb, hab⟩
            · exact Or.inl (List.mem_cons_of_mem x h2)
            · exact Or.inr ⟨b, List.mem_cons_of_mem x hb, hab⟩

theorem progressInv_setFile {t : BatchTask} {idx : ℕ} {g : FileRec → FileRec}
    (h : ProgressInv t)
    (hg : ∀ f, 0 ≤ f.progress ∧ f.progress ≤ 100 →
      0 ≤ (g f).progress ∧ (g f).progress ≤ 100) :
    ProgressInv (setFile t idx g) := by
  intro f hf
  rcases mem_updNth hf with h1 | ⟨b, hb, hab⟩
  · exact h f h1
  · rw [hab]
    exact hg b (h b hb)

theorem progressInv_applyCallback {t : BatchTask} {idx : ℕ} {p : ℚ}
    (h : ProgressInv t) (hp : 0 ≤ p ∧ p ≤ 100) :
    ProgressInv (applyCallback t idx p) := by
  intro f hf
  rcases mem_updNth hf with h1 | ⟨b, hb, hab⟩
  · exact h f h1
  · rw [hab]
    exact hp

theorem progressInv_foldl_callbacks (idx : ℕ) (cbs : List ℚ) :
    ∀ t : BatchTask, ProgressInv t → (∀ p ∈ cbs, 0 ≤ p ∧ p ≤ 100) →
      ProgressInv (cbs.foldl (fun acc p => applyCallback acc idx p) t) := by
  induction cbs with
  | nil => intro t h _; exact h
  | cons p ps ih =>
      intro t h hcb
      rw [List.foldl_cons]
      exact ih _ (progressInv_applyCallback h (hcb p (List.mem_cons_self p ps)))
        (fun q hq => hcb q (List.mem_cons_of_mem p hq))

theorem progressInv_runIteration {t : BatchTask} {idx : ℕ} {spec : IterSpec}
    (h : ProgressInv t) (hcb : ∀ p ∈ spec.callbacks, 0 ≤ p ∧ p ≤ 100) :
    ProgressInv (runIteration t idx spec).1 := by
  have h1 : ProgressInv (setFile t idx
      (fun f => { f with status := TaskStatus.processing, progress := 0 })) :=
    progressInv_setFile h (fun f _ => by norm_num)
  have h2 := progressInv_foldl_callbacks idx spec.callbacks _ h1 hcb
  rcases hres : spec.result with r | msg
  · rcases r with _ | b
    · simp only [runIteration, hres]
      exact progressInv_setFile h2 (fun f _ => by norm_num)
    · rcases b with _ | _
      · simp only [runIteration, hres]
        exact progressInv_setFile h2 (fun f hf => hf)
      · simp only [runIteration, hres]
        exact progressInv_setFile
          (progressInv_applyCallback h2 (by norm_num)) (fun f _ => by norm_num)
  · simp only [runIteration, hres]
    exact progressInv_setFile h2 (fun f hf => hf)

theorem progressInv_finalize {t : BatchTask} (h : ProgressInv t) :
    ProgressInv (finalize t) := h

theorem progressInv_runFrom {specs : ℕ → IterSpec} {stopEvt : ℕ → Bool}
    (hcb : ∀ i, ∀ p ∈ (specs i).callbacks, 0 ≤ p ∧ p ≤ 100) :
    ∀ (k idx : ℕ) (t : BatchTask), ProgressInv t →
      ProgressInv (runFrom specs stopEvt k idx t) := by
  intro k
  induction k with
  | zero => intro idx t h; exact progressInv_finalize h
  | succ k ih =>
      intro idx t h
      have hInv' : ProgressInv (stopApplied stopEvt idx t) := by
        unfold stopApplied
        split <;> exact h
      rw [runFrom]
      split
      · exact progressInv_finalize hInv'
      · split
        · exact ih _ _ hInv'
        · split
          · exact progressInv_finalize (progressInv_runIteration hInv' (hcb idx))
          · exact ih _ _ (progressInv_runIteration hInv' (hcb idx))

theorem finalize_overall (t : BatchTask) :
    (finalize t).overall_progress = round2 (meanProgress (finalize t).files) := rfl

theorem runFrom_overall (specs : ℕ → IterSpec) (stopEvt : ℕ → Bool) :
    ∀ (k idx : ℕ) (t : BatchTask),
      (runFrom specs stopEvt k idx t).overall_progress
        = round2 (meanProgress (runFrom specs stopEvt k idx t).files) := by
  intro k
  induction k with
  | zero => intro idx t; exact finalize_overall t
  | succ k ih =>
      intro idx t
      rw [runFrom]
      split
      · exact finalize_overall _
      · split
        · exact ih _ _
        · split
          · exact finalize_overall _
          · exact ih _ _

theorem batchTask_set_stopped_self {t : BatchTask} (h : t.stopped = true) :
    { t with stopped := true } = t := by
  cases t
  simp_all

theorem stopApplied_of_stopped {stopEvt : ℕ → Bool} {idx : ℕ} {t : BatchTask}
    (h : t.stopped = true) : stopApplied stopEvt idx t = t := by
  unfold stopApplied
  split
  · exact batchTask_set_stopped_self h
  · rfl

theorem runFrom_halt {specs : ℕ → IterSpec} {stopEvt : ℕ → Bool} {k idx : ℕ}
    {t : BatchTask} (h : t.stopped = true) :
    runFrom specs stopEvt (k + 1) idx t = finalize t := by
  rw [runFrom, stopApplied_of_stopped h, if_pos h]

theorem files_length_applyCallback (t : BatchTask) (idx : ℕ) (p : ℚ) :
    (applyCallback t idx p).files.length = t.files.length := by
  unfold applyCallback
  exact updNth_length _ _ _

theorem files_length_foldl_callbacks (idx : ℕ) (cbs : List ℚ) :
    ∀ t : BatchTask,
      ((cbs.foldl (fun acc p => applyCallback acc idx p) t).files.length
        = t.files.length) := by
  induction cbs with
  | nil => intro t; rfl
  | cons p ps ih =>
      intro t
      rw [List.foldl_cons, ih, files_length_applyCallback]

theorem files_length_setFile (t : BatchTask) (idx : ℕ) (g : FileRec → FileRec) :
    (setFile t idx g).files.length = t.files.length := by
  unfold setFile
  exact updNth_length _ _ _

theorem files_length_runIteration (t : BatchTask) (idx : ℕ) (spec : IterSpec) :
    (runIteration t idx spec).1.files.length = t.files.length := by
  rcases hres : spec.result with r | msg
  · rcases r with _ | b
    · simp only [runIteration, hres]
      rw [files_length_setFile, files_length_foldl_callbacks, files_length_setFile]
    · rcases b with _ | _
      · simp only [runIteration, hres]
        rw [files_length_setFile, files_length_foldl_callbacks, files_length_setFile]
      · simp only [runIteration, hres]
        rw [files_length_setFile, files_length_applyCallback,
          files_length_foldl_callbacks, files_length_setFile]
  · simp only [runIteration, hres]
    rw [files_length_setFile, files_length_foldl_callbacks, files_length_setFile]

theorem getFile_setFile_self {t : BatchTask} {idx : ℕ} (g : FileRec → FileRec)
    (h : idx < t.files.length) : getFile (setFile t idx g) idx = g (getFile t idx) := by
  unfold getFile setFile
  rw [get?_updNth_self, List.get?_eq_get h]
  rfl

theorem stopped_applyCallback (t : BatchTask) (idx : ℕ) (p : ℚ) :
    (applyCallback t idx p).stopped = t.stopped := rfl

theorem stopped_foldl_callbacks (idx : ℕ) (cbs : List ℚ) :
    ∀ t : BatchTask,
      ((cbs.foldl (fun acc p => applyCallback acc idx p) t).stopped = t.stopped) := by
  induction cbs with
  | nil => intro t; rfl
  | cons p ps ih =>
      intro t
      rw [List.foldl_cons, ih, stopped_applyCallback]

theorem stopped_setFile (t : BatchTask) (idx : ℕ) (g : FileRec → FileRec) :
    (setFile t idx g).stopped = t.stopped := rfl

theorem stopped_runIteration (t : BatchTask) (idx : ℕ) (spec : IterSpec) :
    (runIteration t idx spec).1.stopped = t.stopped := by
  rcases hres : spec.result with r | msg
  · rcases r with _ | b
    · simp only [runIteration, hres]
      rw [stopped_setFile, stopped_foldl_callbacks, stopped_setFile]
    · rcases b with _ | _
      · simp only [runIteration, hres]
        rw [stopped_setFile, stopped_foldl_callbacks, stopped_setFile]
      · simp only [runIteration, hres]
        rw [stopped_setFile, stopped_applyCallback, stopped_foldl_callbacks,
          stopped_setFile]
  · simp only [runIteration, hres]
    rw [stopped_setFile, stopped_foldl_callbacks, stopped_setFile]

theorem runIteration_no_break {t : BatchTask} {idx : ℕ} {spec : IterSpec} {b : Bool}
    (hres : spec.result = ConvResult.ok (some b)) :
    (runIteration t idx spec).2 = false := by
  rcases b with _ | _ <;> simp only [runIteration, hres]

theorem runIteration_exc_no_break {t : BatchTask} {idx : ℕ} {spec : IterSpec}
    {msg : String} (hres : spec.result = ConvResult.exc msg) :
    (runIteration t idx spec).2 = false := by
  simp only [runIteration, hres]

theorem runIteration_success_file {t : BatchTask} {idx : ℕ} {spec : IterSpec}
    (h : idx < t.files.length) (hres : spec.result = ConvResult.ok (some true)) :
    (getFile (runIteration t idx spec).1 idx).status = TaskStatus.completed
    ∧ (getFile (runIteration t idx spec).1 idx).progress = 100
    ∧ (getFile (runIteration t idx spec).1 idx).output_file = some spec.outPath := by
  simp only [runIteration, hres]
  have hlen : idx < (applyCallback
      (spec.callbacks.foldl (fun acc p => applyCallback acc idx p)
        (setFile t idx (fun f =>
          { f with status := TaskStatus.processing, progress := 0 }))) idx
      100).files.length := by
    rw [files_length_applyCallback, files_length_foldl_callbacks, files_length_setFile]
    exact h
  rw [getFile_setFile_self _ hlen]
  exact ⟨rfl, rfl, rfl⟩

theorem runIteration_failed_file {t : BatchTask} {idx : ℕ} {spec : IterSpec}
    (h : idx < t.files.length) (hres : spec.result = ConvResult.ok (some false)) :
    (getFile (runIteration t idx spec).1 idx).status = TaskStatus.failed
    ∧ (getFile (runIteration t idx spec).1 idx).error = some convFailedMsg := by
  simp only [runIteration, hres]
  have hlen : idx < ((spec.callbacks.foldl (fun acc p => applyCallback acc idx p)
      (setFile t idx (fun f =>
        { f with status := TaskStatus.processing, progress := 0 })))).files.length := by
    rw [files_length_foldl_callbacks, files_length_setFile]
    exact h
  rw [getFile_setFile_self _ hlen]
  exact ⟨rfl, rfl⟩

theorem stopApplied_of_no_evt {stopEvt : ℕ → Bool} {idx : ℕ} {t : BatchTask}
    (h : stopEvt idx = false) : stopApplied stopEvt idx t = t := by
  unfold stopApplied
  rw [h]
  rfl

theorem runFrom_halt_evt {specs : ℕ → IterSpec} {stopEvt : ℕ → Bool} {k idx : ℕ}
    {t : BatchTask} (h : stopEvt idx = true) :
    runFrom specs stopEvt (k + 1) idx t = finalize { t with stopped := true } := by
  have h1 : stopApplied stopEvt idx t = { t with stopped := true } := by
    unfold stopApplied
    rw [h]
    rfl
  rw [runFrom, h1]
  rfl

theorem runFrom_step {specs : ℕ → IterSpec} {stopEvt : ℕ → Bool} {k idx : ℕ}
    {t : BatchTask} (hstop : t.stopped = false) (hevt : stopEvt idx = false)
    (hst : (getFile t idx).status ≠ TaskStatus.completed)
    (hbrk : (runIteration t idx (specs idx)).2 = false) :
    runFrom specs stopEvt (k + 1) idx t
      = runFrom specs stopEvt k (idx + 1) (runIteration t idx (specs idx)).1 := by
  rw [runFrom, stopApplied_of_no_evt hevt, hstop, if_neg (by simp), if_neg hst, hbrk]
  rfl

/-! ## Claim theorems -/

/-- C10: the registry-interrupt operation is total and leaves the
registry consistent — an unregistered task id leaves the registry
unchanged and reports nothing, while a registered one always has its
entry removed, whatever the process's exit state or the behaviour of its
`terminate()` call, with every other entry untouched. -/
theorem c10_terminate_registry_consistent (reg : Registry) (tid : String) :
    (lookupKey reg tid = none → terminate_task_processes reg tid = (reg, none))
    ∧ (∀ p : Proc, lookupKey reg tid = some p →
        lookupKey (terminate_task_processes reg tid).1 tid = none
        ∧ (∀ k : String, k ≠ tid →
            lookupKey (terminate_task_processes reg tid).1 k = lookupKey reg k)) := by
  constructor
  · intro h
    unfold terminate_task_processes
    rw [h]
  · intro p hp
    unfold terminate_task_processes
    rw [hp]
    exact ⟨lookupKey_eraseKey_self reg tid,
      fun k hk => lookupKey_eraseKey_ne reg tid k hk⟩

/-- C10 witness: the concrete registry `regW`, whose entry "a" holds a
running process that raises on `terminate()`, still loses that entry. -/
theorem c10_witness :
    lookupKey regW "a" = some { returncode := none, terminateRaises := true }
    ∧ (lookupKey (terminate_task_processes regW "a").1 "a" = none
       ∧ (∀ k : String, k ≠ "a" →
            lookupKey (terminate_task_processes regW "a").1 k = lookupKey regW k)) :=
  ⟨by decide,
   (c10_terminate_registry_consistent regW "a").2
     { returncode := none, terminateRaises := true } (by decide)⟩

/-- C1 counterexample: a run with a task id whose registry entry was
removed before natural exit but whose process exits with code 0 is
classified as Success (`some true`), not Interrupted (`none`) — refuting
"the outcome is Interrupted regardless of the process's own exit code". -/
theorem c1_counterexample :
    (convert_finish (some "t") ([] : Registry) 0 "x").1 = some true
    ∧ (convert_finish (some "t") ([] : Registry) 0 "x").1 ≠ none := by
  constructor
  · decide
  · decide

/-- C1 (amended): with a task id given and the registry entry removed by
an external actor before natural exit, the outcome is Interrupted exactly
when the exit code is nonzero; an exit code of 0 is classified Success
regardless of the removal. -/
theorem c1_amended (taskId : Option String) (reg : Registry) (rc : Int) (s : String)
    (htid : truthyStr taskId = true)
    (hrem : containsKey reg (taskId.getD "") = false) :
    (rc ≠ 0 → (convert_finish taskId reg rc s).1 = none)
    ∧ (convert_finish taskId reg 0 s).1 = some true := by
  constructor
  · intro hrc
    simp only [convert_finish, htid, hrem, Bool.not_false, Bool.and_true, Bool.and_false,
      Bool.true_and, if_neg hrc]
    simp
  · simp only [convert_finish]
    simp

/-- C1 witness: a removed registry entry with exit code 1 yields
Interrupted, and with exit code 0 yields Success. -/
theorem c1_witness :
    truthyStr (some "t") = true
    ∧ containsKey ([] : Registry) ((some "t").getD "") = false
    ∧ ((1 : Int) ≠ 0 → (convert_finish (some "t") ([] : Registry) 1 "e").1 = none)
    ∧ (convert_finish (some "t") ([] : Registry) 0 "e").1 = some true :=
  ⟨by decide, by decide,
   (c1_amended (some "t") ([] : Registry) 1 "e" (by decide) (by decide)).1,
   (c1_amended (some "t") ([] : Registry) 1 "e" (by decide) (by decide)).2⟩

/-- C6: parsing the canonical microsecond-marker line against a positive
duration yields exactly `round2 (min (elapsed / duration) 1 * 100)`;
elapsed beyond the duration yields exactly 100; and every value the
parser ever produces lies in [0, 100]. -/
theorem c6_parse_progress_clamped (d : ℚ) (n : ℕ) (hd : 0 < d) :
    parse_progress (msLine n) d
      = some (round2 (min ((n : ℚ) / 1000000 / d) 1 * 100))
    ∧ ((n : ℚ) / 1000000 > d → parse_progress (msLine n) d = some 100)
    ∧ (∀ (line : List Char) (p : ℚ), parse_progress line d = some p →
        0 ≤ p ∧ p ≤ 100) := by
  have hmain := parse_progress_msLine n d hd
  refine ⟨?_, ?_, ?_⟩
  · rw [hmain, min_one_mul_hundred]
  · intro hgt
    have h1 : (1 : ℚ) < (n : ℚ) / 1000000 / d := (one_lt_div hd).mpr hgt
    have h2 : (100 : ℚ) ≤ (n : ℚ) / 1000000 / d * 100 := by nlinarith
    rw [hmain, min_eq_right h2, round2_hundred]
  · intro line p hp
    exact parse_progress_range hp

/-- C6 witness at duration 2 s and a 1 s microsecond marker. -/
theorem c6_witness :
    (0 : ℚ) < 2
    ∧ (parse_progress (msLine 1000000) 2
        = some (round2 (min ((1000000 : ℚ) / 1000000 / 2) 1 * 100))
      ∧ (((1000000 : ℚ) / 1000000 > 2 → parse_progress (msLine 1000000) 2 = some 100)
      ∧ (∀ (line : List Char) (p : ℚ), parse_progress line 2 = some p →
          0 ≤ p ∧ p ≤ 100))) :=
  ⟨by norm_num, c6_parse_progress_clamped 2 1000000 (by norm_num)⟩

/-- C3: an audio copy-mode request for the (wma → mp3) pair always forces
re-encoding with the mp3-mapped codec `libmp3lame`, both with no extra
audio parameter and with an explicit bitrate; in the bitrate case the
`-b:a` argument is part of the built command. -/
theorem c3_audio_copy_wma_mp3 (ffmpeg inp outp b : String) (hb : b ≠ "") :
    ((convert_audio_plan ffmpeg inp outp "wma" "mp3" none none none none
        "copy").is_copy_mode = false
    ∧ (convert_audio_plan ffmpeg inp outp "wma" "mp3" none none none none
        "copy").codec = "libmp3lame"
    ∧ (convert_audio_plan ffmpeg inp outp "wma" "mp3" none none none none "copy").cmd
        = [ffmpeg, "-i", inp, "-c:a", "libmp3lame", "-progress", "pipe:2", "-y", outp])
    ∧ ((convert_audio_plan ffmpeg inp outp "wma" "mp3" (some b) none none none
        "copy").is_copy_mode = false
    ∧ (convert_audio_plan ffmpeg inp outp "wma" "mp3" (some b) none none none
        "copy").codec = "libmp3lame"
    ∧ (convert_audio_plan ffmpeg inp outp "wma" "mp3" (some b) none none none
        "copy").cmd
        = [ffmpeg, "-i", inp, "-c:a", "libmp3lame", "-b:a", b, "-progress", "pipe:2",
           "-y", outp]) := by
  have hmem : ("wma", "mp3") ∈ incompatible_combinations := by decide
  refine ⟨⟨?_, ?_, ?_⟩, ⟨?_, ?_, ?_⟩⟩ <;>
    simp [convert_audio_plan, hmem, optArg, truthyStr, hb]

/-- C3 witness at bitrate "192k". -/
theorem c3_witness :
    "192k" ≠ ""
    ∧ (((convert_audio_plan "ffmpeg" "a.wma" "o.mp3" "wma" "mp3" none none none none
          "copy").is_copy_mode = false
      ∧ (convert_audio_plan "ffmpeg" "a.wma" "o.mp3" "wma" "mp3" none none none none
          "copy").codec = "libmp3lame"
      ∧ (convert_audio_plan "ffmpeg" "a.wma" "o.mp3" "wma" "mp3" none none none none
          "copy").cmd
          = ["ffmpeg", "-i", "a.wma", "-c:a", "libmp3lame", "-progress", "pipe:2",
             "-y", "o.mp3"])
    ∧ ((convert_audio_plan "ffmpeg" "a.wma" "o.mp3" "wma" "mp3" (some "192k") none none
          none "copy").is_copy_mode = false
      ∧ (convert_audio_plan "ffmpeg" "a.wma" "o.mp3" "wma" "mp3" (some "192k") none none
          none "copy").codec = "libmp3lame"
      ∧ (convert_audio_plan "ffmpeg" "a.wma" "o.mp3" "wma" "mp3" (some "192k") none none
          none "copy").cmd
          = ["ffmpeg", "-i", "a.wma", "-c:a", "libmp3lame", "-b:a", "192k", "-progress",
             "pipe:2", "-y", "o.mp3"])) :=
  ⟨by decide, c3_audio_copy_wma_mp3 "ffmpeg" "a.wma" "o.mp3" "192k" (by decide)⟩

/-- C4: a video copy-mode request for the (avi → mp4) pair with no
resolution, video-bitrate or frame-rate parameter keeps the `copy` video
codec directive (the incompatibility table is advisory only), while
supplying a frame rate overrides copy mode to the fallback codec
`libx264` with the `-r` argument in the built command. -/
theorem c4_video_copy_avi_mp4 (ffmpeg inp outp fr : String) (hfr : fr ≠ "") :
    ((convert_video_plan ffmpeg inp outp "avi" "mp4" none none "copy" "aac" none
        none).is_copy_mode = true
    ∧ (convert_video_plan ffmpeg inp outp "avi" "mp4" none none "copy" "aac" none
        none).video_codec = "copy"
    ∧ (convert_video_plan ffmpeg inp outp "avi" "mp4" none none "copy" "aac" none
        none).cmd
        = [ffmpeg, "-i", inp, "-c:v", "copy", "-c:a", "aac", "-progress", "pipe:2",
           "-y", outp])
    ∧ ((convert_video_plan ffmpeg inp outp "avi" "mp4" none none "copy" "aac" none
        (some fr)).is_copy_mode = false
    ∧ (convert_video_plan ffmpeg inp outp "avi" "mp4" none none "copy" "aac" none
        (some fr)).video_codec = "libx264"
    ∧ (convert_video_plan ffmpeg inp outp "avi" "mp4" none none "copy" "aac" none
        (some fr)).cmd
        = [ffmpeg, "-i", inp, "-c:v", "libx264", "-r", fr, "-c:a", "aac", "-progress",
           "pipe:2", "-y", outp]) := by
  refine ⟨⟨?_, ?_, ?_⟩, ⟨?_, ?_, ?_⟩⟩ <;>
    simp [convert_video_plan, optArg, truthyStr, hfr]

/-- C4 witness at frame rate "30". -/
theorem c4_witness :
    "30" ≠ ""
    ∧ (((convert_video_plan "ffmpeg" "a.avi" "o.mp4" "avi" "mp4" none none "copy" "aac"
          none none).is_copy_mode = true
      ∧ (convert_video_plan "ffmpeg" "a.avi" "o.mp4" "avi" "mp4" none none "copy" "aac"
          none none).video_codec = "copy"
      ∧ (convert_video_plan "ffmpeg" "a.avi" "o.mp4" "avi" "mp4" none none "copy" "aac"
          none none).cmd
          = ["ffmpeg", "-i", "a.avi", "-c:v", "copy", "-c:a", "aac", "-progress",
             "pipe:2", "-y", "o.mp4"])
    ∧ ((convert_video_plan "ffmpeg" "a.avi" "o.mp4" "avi" "mp4" none none "copy" "aac"
          none (some "30")).is_copy_mode = false
      ∧ (convert_video_plan "ffmpeg" "a.avi" "o.mp4" "avi" "mp4" none none "copy" "aac"
          none (some "30")).video_codec = "libx264"
      ∧ (convert_video_plan "ffmpeg" "a.avi" "o.mp4" "avi" "mp4" none none "copy" "aac"
          none (some "30")).cmd
          = ["ffmpeg", "-i", "a.avi", "-c:v", "libx264", "-r", "30", "-c:a", "aac",
             "-progress", "pipe:2", "-y", "o.mp4"])) :=
  ⟨by decide, c4_video_copy_avi_mp4 "ffmpeg" "a.avi" "o.mp4" "30" (by decide)⟩

theorem resume_sync_source (t : BatchTask) (current : Option (List String)) :
    (resume_sync t current).source = t.source := by
  rcases current with _ | names <;> rfl

theorem resume_sync_submit_all_falsy (tid : String) (req : ConvertRequest)
    (current : Option (List String)) :
    ∀ f ∈ (resume_sync (submit_task tid req) current).files,
      truthyStr f.output_file = false := by
  intro f hf
  rcases current with _ | names
  · simp only [resume_sync, submit_task] at hf
    obtain ⟨nm, hnm, hini⟩ := List.mem_map.mp hf
    rw [← hini]
    rfl
  · simp only [resume_sync, submit_task] at hf
    rcases List.mem_append.mp hf with h | h
    · have h2 := (List.mem_filter.mp h).1
      obtain ⟨nm, hnm, hini⟩ := List.mem_map.mp h2
      rw [← hini]
      rfl
    · obtain ⟨nm, hnm, hini⟩ := List.mem_map.mp h
      rw [← hini]
      rfl

theorem resume_output_format_of_none {t : BatchTask}
    (h : t.files.find? (fun f => truthyStr f.output_file) = none) :
    resume_output_format t = "mp4" := by
  unfold resume_output_format
  rw [h]

theorem resume_output_format_of_some {t : BatchTask} {f : FileRec}
    (h : t.files.find? (fun f => truthyStr f.output_file) = some f) :
    resume_output_format t = String.mk (pathExt (f.output_file.getD "").data) := by
  unfold resume_output_format
  rw [h]

/-- C8 counterexample: resuming a freshly-submitted mp3 batch that was
paused before any file completed runs with output format "mp4", not the
originally requested "mp3" — the original output format is never recorded
on the task. -/
theorem c8_counterexample :
    (resume_task taskA none).2.output_format = "mp4"
    ∧ (resume_task taskA none).2.output_format ≠ reqA.output_format := by
  constructor
  · decide
  · decide

/-- C8 (amended): resume reuses the source-location tag recorded at the
original submission, but the output format is not recorded — it is
inferred as the extension of the first file record carrying an output
path, and defaults to "mp4" whenever there is none; in particular a
resumed batch in which no file had completed always runs with "mp4". -/
theorem c8_amended (tid : String) (req : ConvertRequest) (t : BatchTask)
    (current : Option (List String)) :
    (resume_task (submit_task tid req) current).2.source = req.source
    ∧ (resume_task t current).2.source = t.source
    ∧ ((∀ f ∈ (resume_sync t current).files, truthyStr f.output_file = false) →
        (resume_task t current).2.output_format = "mp4")
    ∧ (∀ f : FileRec,
        (resume_sync t current).files.find? (fun f => truthyStr f.output_file)
          = some f →
        (resume_task t current).2.output_format
          = String.mk (pathExt (f.output_file.getD "").data))
    ∧ (resume_task (submit_task tid req) current).2.output_format = "mp4" := by
  have hsrc : ∀ t' : BatchTask, (resume_task t' current).2.source = t'.source := by
    intro t'
    show (resume_sync t' current).source = t'.source
    exact resume_sync_source t' current
  have hfmt : ∀ t' : BatchTask,
      (resume_task t' current).2.output_format
        = resume_output_format
            { resume_sync t' current with stopped := false, paused := false } := by
    intro t'
    rfl
  have hfiles : ∀ t' : BatchTask,
      ({ resume_sync t' current with stopped := false, paused := false }
        : BatchTask).files = (resume_sync t' current).files := by
    intro t'
    rfl
  refine ⟨?_, hsrc t, ?_, ?_, ?_⟩
  · rw [hsrc (submit_task tid req)]
    rfl
  · intro hall
    rw [hfmt t]
    apply resume_output_format_of_none
    rw [hfiles t]
    exact List.find?_eq_none.mpr (fun x hx => by rw [hall x hx]; simp)
  · intro f hfind
    rw [hfmt t]
    apply resume_output_format_of_some
    rw [hfiles t]
    exact hfind
  · rw [hfmt (submit_task tid req)]
    apply resume_output_format_of_none
    rw [hfiles (submit_task tid req)]
    exact List.find?_eq_none.mpr
      (fun x hx => by rw [resume_sync_submit_all_falsy tid req current x hx]; simp)

/-- C8 witness: the fresh one-file submission `taskA`, resumed with no
current-filename set, reuses its recorded source and infers "mp4". -/
theorem c8_witness :
    (∀ f ∈ (resume_sync taskA none).files, truthyStr f.output_file = false)
    ∧ (resume_task taskA none).2.output_format = "mp4"
    ∧ (resume_task (submit_task "tA" reqA) none).2.source = reqA.source :=
  ⟨by decide, (c8_amended "tA" reqA taskA none).2.2.1 (by decide),
   (c8_amended "tA" reqA taskA none).1⟩

/-- C9 counterexample: resume's list resynchronization replaces a
Completed/100 file by a fresh Pending/0 file without recomputing the
overall progress, so right after the resynchronization the stored overall
progress (100) differs from the (rounded) mean of the per-file values
(0) — refuting "recomputed after every FileTask mutation". -/
theorem c9_counterexample :
    (resume_sync task9 (some ["b.mp3"])).overall_progress
      ≠ round2 (meanProgress (resume_sync task9 (some ["b.mp3"])).files) := by
  have hfiles : (resume_sync task9 (some ["b.mp3"])).files
      = [{ filename := "b.mp3", status := TaskStatus.pending, progress := 0,
           error := none, output_file := none, output_size := none }] := by decide
  have hover : (resume_sync task9 (some ["b.mp3"])).overall_progress = 100 := by decide
  rw [hover, hfiles]
  have hmean : meanProgress
      [{ filename := "b.mp3", status := TaskStatus.pending, progress := 0,
         error := none, output_file := none, output_size := none }] = 0 := by
    simp [meanProgress]
  rw [hmean]
  have hz : round2 0 = 0 := by
    unfold round2 rhe
    norm_num
  rw [hz]
  norm_num

/-- C9 (amended): every per-file progress lies in [0, 100] throughout a
batch run whose callback values are in range (as all parser outputs are),
and the overall progress equals the two-decimal-rounded arithmetic mean
of the per-file values after the driving loop ends, after a Pause, and
after every progress callback; resume's list resynchronization, however,
does not recompute it, leaving it stale until the next recompute point. -/
theorem c9_amended (specs : ℕ → IterSpec) (stopEvt : ℕ → Bool) (t : BatchTask)
    (hcb : ∀ i, ∀ p ∈ (specs i).callbacks, 0 ≤ p ∧ p ≤ 100)
    (hInv : ProgressInv t) :
    ProgressInv (process_batch_convert specs stopEvt t)
    ∧ (process_batch_convert specs stopEvt t).overall_progress
        = round2 (meanProgress (process_batch_convert specs stopEvt t).files)
    ∧ (∀ reg : Registry, (pause_task reg t).2.1.overall_progress
        = round2 (meanProgress (pause_task reg t).2.1.files))
    ∧ (∀ (idx : ℕ) (p : ℚ), (applyCallback t idx p).overall_progress
        = round2 (meanProgress (applyCallback t idx p).files)) := by
  refine ⟨?_, ?_, ?_, ?_⟩
  · have h0 : ProgressInv { t with stopped := false } := hInv
    exact progressInv_runFrom hcb _ _ _ h0
  · exact runFrom_overall specs stopEvt _ _ _
  · intro reg
    rfl
  · intro idx p
    rfl

/-- C9 witness at the one-file task `taskA` driven by a run with a single
in-range 50% callback. -/
theorem c9_witness :
    (∀ i, ∀ p ∈ ((fun _ : ℕ => specOk) i).callbacks, 0 ≤ p ∧ p ≤ 100)
    ∧ ProgressInv taskA
    ∧ (ProgressInv (process_batch_convert (fun _ => specOk) (fun _ => false) taskA)
      ∧ (process_batch_convert (fun _ => specOk) (fun _ => false) taskA).overall_progress
          = round2 (meanProgress
              (process_batch_convert (fun _ => specOk) (fun _ => false) taskA).files)
      ∧ (∀ reg : Registry, (pause_task reg taskA).2.1.overall_progress
          = round2 (meanProgress (pause_task reg taskA).2.1.files))
      ∧ (∀ (idx : ℕ) (p : ℚ), (applyCallback taskA idx p).overall_progress
          = round2 (meanProgress (applyCallback taskA idx p).files))) := by
  have hcb : ∀ i, ∀ p ∈ ((fun _ : ℕ => specOk) i).callbacks, 0 ≤ p ∧ p ≤ 100 := by
    intro i p hp
    simp only [specOk, List.mem_singleton] at hp
    rw [hp]
    norm_num
  have hInv : ProgressInv taskA := by
    intro f hf
    have hfl : taskA.files = [initFile "a.wma"] := by decide
    rw [hfl] at hf
    simp only [List.mem_singleton] at hf
    rw [hf]
    constructor <;> norm_num [initFile]
  exact ⟨hcb, hInv, c9_amended (fun _ => specOk) (fun _ => false) taskA hcb hInv⟩

/-- C7 counterexample: a one-file batch whose encoder exits with code 1
(still registered) emitting the diagnostic "boom" ends with the file
marked Failed carrying the fixed message "转换失败" — not the captured
diagnostic text, which is only logged — refuting "the captured diagnostic
text is attached verbatim as its per-file error message". -/
theorem c7_counterexample :
    (getFile (process_batch_convert (fun _ => spec7) (fun _ => false) taskA) 0).status
      = TaskStatus.failed
    ∧ (getFile (process_batch_convert (fun _ => spec7) (fun _ => false) taskA) 0).error
      = some convFailedMsg
    ∧ (getFile (process_batch_convert (fun _ => spec7) (fun _ => false) taskA) 0).error
      ≠ some "boom" := by
  refine ⟨by decide, by decide, by decide⟩

/-- C7 (amended): when the encoder runs to natural exit with nonzero
status while still registered, the converter returns False and the batch
loop marks that file Failed with the fixed message "转换失败" (the
captured diagnostic text is only logged — the classification does not
depend on it at all) and continues with the next file instead of
aborting. -/
theorem c7_amended (specs : ℕ → IterSpec) (stopEvt : ℕ → Bool) (k idx : ℕ)
    (t : BatchTask) (hstop : t.stopped = false) (hevt : stopEvt idx = false)
    (hlen : idx < t.files.length)
    (hst : (getFile t idx).status ≠ TaskStatus.completed)
    (hres : (specs idx).result = ConvResult.ok (some false)) :
    runFrom specs stopEvt (k + 1 + 1) idx t
      = runFrom specs stopEvt (k + 1) (idx + 1) (runIteration t idx (specs idx)).1
    ∧ (getFile (runIteration t idx (specs idx)).1 idx).status = TaskStatus.failed
    ∧ (getFile (runIteration t idx (specs idx)).1 idx).error = some convFailedMsg
    ∧ (∀ (taskId : Option String) (reg : Registry) (rc : Int) (s1 s2 : String),
        (convert_finish taskId reg rc s1).1 = (convert_finish taskId reg rc s2).1) := by
  refine ⟨?_, ?_, ?_, ?_⟩
  · exact runFrom_step hstop hevt hst (runIteration_no_break hres)
  · exact (runIteration_failed_file hlen hres).1
  · exact (runIteration_failed_file hlen hres).2
  · intro taskId reg rc s1 s2
    rfl

/-- C7 witness: the failing run `spec7` at index 0 of the one-file batch
`taskA`. -/
theorem c7_witness :
    taskA.stopped = false
    ∧ (fun _ : ℕ => false) 0 = false
    ∧ 0 < taskA.files.length
    ∧ (getFile taskA 0).status ≠ TaskStatus.completed
    ∧ ((fun _ : ℕ => spec7) 0).result = ConvResult.ok (some false)
    ∧ (runFrom (fun _ => spec7) (fun _ => false) (0 + 1 + 1) 0 taskA
        = runFrom (fun _ => spec7) (fun _ => false) (0 + 1) (0 + 1)
            (runIteration taskA 0 ((fun _ : ℕ => spec7) 0)).1
      ∧ (getFile (runIteration taskA 0 ((fun _ : ℕ => spec7) 0)).1 0).status
          = TaskStatus.failed
      ∧ (getFile (runIteration taskA 0 ((fun _ : ℕ => spec7) 0)).1 0).error
          = some convFailedMsg
      ∧ (∀ (taskId : Option String) (reg : Registry) (rc : Int) (s1 s2 : String),
          (convert_finish taskId reg rc s1).1 = (convert_finish taskId reg rc s2).1)) :=
  ⟨by decide, rfl, by decide, by decide, by decide,
   c7_amended (fun _ => spec7) (fun _ => false) 0 0 taskA (by decide) rfl (by decide)
     (by decide) (by decide)⟩

/-- C2: pausing an existing (non-empty) batch terminates and deregisters
the task's registered process, sets the stop flag, resets every
Processing file to Pending/0, leaves every other file record untouched,
and recomputes the overall progress as the two-decimal-rounded arithmetic
mean of the new per-file progress values. -/
theorem c2_pause (reg : Registry) (t : BatchTask) (hne : t.files ≠ []) :
    (pause_task reg t).2.1.stopped = true
    ∧ lookupKey (pause_task reg t).1 t.task_id = none
    ∧ (∀ k : String, k ≠ t.task_id →
        lookupKey (pause_task reg t).1 k = lookupKey reg k)
    ∧ (pause_task reg t).2.1.files.length = t.files.length
    ∧ (∀ i : ℕ, ∀ hi : i < t.files.length,
        ((t.files.get ⟨i, hi⟩).status = TaskStatus.processing →
          getFile (pause_task reg t).2.1 i
            = { t.files.get ⟨i, hi⟩ with status := TaskStatus.pending, progress := 0 })
        ∧ ((t.files.get ⟨i, hi⟩).status ≠ TaskStatus.processing →
          getFile (pause_task reg t).2.1 i = t.files.get ⟨i, hi⟩))
    ∧ (pause_task reg t).2.1.overall_progress
        = round2 (meanProgress (pause_task reg t).2.1.files)
    ∧ (∀ p : Proc, lookupKey reg t.task_id = some p → p.returncode = none →
        p.terminateRaises = false →
        (pause_task reg t).2.2 = some TermEffect.terminated) := by
  have hreg1 : ∀ q : Option Proc, lookupKey reg t.task_id = q →
      (pause_task reg t).1 = (terminate_task_processes reg t.task_id).1 := by
    intro q _
    rfl
  refine ⟨rfl, ?_, ?_, ?_, ?_, rfl, ?_⟩
  · cases hreg : lookupKey reg t.task_id with
    | none =>
        have h1 : (pause_task reg t).1 = reg := by
          show (terminate_task_processes reg t.task_id).1 = reg
          unfold terminate_task_processes
          rw [hreg]
        rw [h1]
        exact hreg
    | some p =>
        have h1 : (pause_task reg t).1 = eraseKey reg t.task_id := by
          show (terminate_task_processes reg t.task_id).1 = eraseKey reg t.task_id
          unfold terminate_task_processes
          rw [hreg]
        rw [h1]
        exact lookupKey_eraseKey_self reg t.task_id
  · intro k hk
    cases hreg : lookupKey reg t.task_id with
    | none =>
        have h1 : (pause_task reg t).1 = reg := by
          show (terminate_task_processes reg t.task_id).1 = reg
          unfold terminate_task_processes
          rw [hreg]
        rw [h1]
    | some p =>
        have h1 : (pause_task reg t).1 = eraseKey reg t.task_id := by
          show (terminate_task_processes reg t.task_id).1 = eraseKey reg t.task_id
          unfold terminate_task_processes
          rw [hreg]
        rw [h1]
        exact lookupKey_eraseKey_ne reg t.task_id k hk
  · show (t.files.map _).length = t.files.length
    exact List.length_map _ _
  · intro i hi
    have hget : t.files.get? i = some (t.files.get ⟨i, hi⟩) := List.get?_eq_get hi
    have hfile : getFile (pause_task reg t).2.1 i
        = (fun f => if f.status = TaskStatus.processing then
            { f with status := TaskStatus.pending, progress := 0 } else f)
          (t.files.get ⟨i, hi⟩) := by
      show ((t.files.map _).get? i).getD default = _
      rw [List.get?_map, hget]
      rfl
    constructor
    · intro hp
      rw [hfile]
      simp only [hp, if_pos]
    · intro hp
      rw [hfile]
      simp only [if_neg hp]
  · intro p hp hrun hraise
    show (terminate_task_processes reg t.task_id).2 = some TermEffect.terminated
    unfold terminate_task_processes
    rw [hp]
    simp only [hrun, hraise]
    rfl

/-- C2 witness: the concrete batch `taskB` (one Processing, one Pending
file) paused against a registry holding its running process. -/
theorem c2_witness :
    taskB.files ≠ []
    ∧ ((pause_task regB taskB).2.1.stopped = true
      ∧ lookupKey (pause_task regB taskB).1 taskB.task_id = none
      ∧ (∀ k : String, k ≠ taskB.task_id →
          lookupKey (pause_task regB taskB).1 k = lookupKey regB k)
      ∧ (pause_task regB taskB).2.1.files.length = taskB.files.length
      ∧ (∀ i : ℕ, ∀ hi : i < taskB.files.length,
          ((taskB.files.get ⟨i, hi⟩).status = TaskStatus.processing →
            getFile (pause_task regB taskB).2.1 i
              = { taskB.files.get ⟨i, hi⟩ with status := TaskStatus.pending, progress := 0 })
          ∧ ((taskB.files.get ⟨i, hi⟩).status ≠ TaskStatus.processing →
            getFile (pause_task regB taskB).2.1 i = taskB.files.get ⟨i, hi⟩))
      ∧ (pause_task regB taskB).2.1.overall_progress
          = round2 (meanProgress (pause_task regB taskB).2.1.files)
      ∧ (∀ p : Proc, lookupKey regB taskB.task_id = some p → p.returncode = none →
          p.terminateRaises = false →
          (pause_task regB taskB).2.2 = some TermEffect.terminated)) :=
  ⟨by decide, c2_pause regB taskB (by decide)⟩

/-- C5: Stop only sets the task's stop flag (and clears the pause flag):
the registry and every file record are untouched; once the flag is
observed, the driving loop halts before starting the next file (only the
final overall-progress recompute happens, files unchanged); and a file
already in flight runs to its natural Completed or Failed outcome even
when a stop arrives before the next check. -/
theorem c5_stop (reg : Registry) (t : BatchTask) (specs : ℕ → IterSpec)
    (stopEvt : ℕ → Bool) (k idx : ℕ) :
    (stop_task reg t).1 = reg
    ∧ (stop_task reg t).2.files = t.files
    ∧ (stop_task reg t).2.overall_progress = t.overall_progress
    ∧ (stop_task reg t).2.stopped = true
    ∧ (∀ t' : BatchTask, t'.stopped = true →
        runFrom specs stopEvt (k + 1) idx t' = finalize t'
        ∧ (finalize t').files = t'.files)
    ∧ (∀ t' : BatchTask, t'.stopped = false → stopEvt idx = false →
        stopEvt (idx + 1) = true →
        (getFile t' idx).status ≠ TaskStatus.completed →
        idx < t'.files.length →
        (((specs idx).result = ConvResult.ok (some true) →
            runFrom specs stopEvt (k + 1 + 1) idx t'
              = finalize { (runIteration t' idx (specs idx)).1 with stopped := true }
            ∧ (getFile (runIteration t' idx (specs idx)).1 idx).status
                = TaskStatus.completed)
        ∧ ((specs idx).result = ConvResult.ok (some false) →
            runFrom specs stopEvt (k + 1 + 1) idx t'
              = finalize { (runIteration t' idx (specs idx)).1 with stopped := true }
            ∧ (getFile (runIteration t' idx (specs idx)).1 idx).status
                = TaskStatus.failed))) := by
  refine ⟨rfl, rfl, rfl, rfl, ?_, ?_⟩
  · intro t' h
    exact ⟨runFrom_halt h, rfl⟩
  · intro t' hstop hevt hevt1 hst hlen
    constructor
    · intro hres
      constructor
      · rw [runFrom_step hstop hevt hst (runIteration_no_break hres)]
        exact runFrom_halt_evt hevt1
      · exact (runIteration_success_file hlen hres).1
    · intro hres
      constructor
      · rw [runFrom_step hstop hevt hst (runIteration_no_break hres)]
        exact runFrom_halt_evt hevt1
      · exact (runIteration_failed_file hlen hres).1

/-- C5 witness: stopping `taskB` against the registry `regB`, and an
in-flight successful iteration of `taskB` at index 0 with a stop event
arriving before the next check. -/
theorem c5_witness :
    (stop_task regB taskB).1 = regB
    ∧ (stop_task regB taskB).2.files = taskB.files
    ∧ (stop_task regB taskB).2.overall_progress = taskB.overall_progress
    ∧ (stop_task regB taskB).2.stopped = true
    ∧ (runFrom (fun _ => specOk) (fun i => i == 1) (0 + 1) 0
        { taskB with stopped := true }
        = finalize { taskB with stopped := true }
      ∧ (finalize { taskB with stopped := true }).files
        = ({ taskB with stopped := true } : BatchTask).files)
    ∧ (runFrom (fun _ => specOk) (fun i => i == 1) (0 + 1 + 1) 0 taskB
        = finalize
            { (runIteration taskB 0 ((fun _ : ℕ => specOk) 0)).1 with stopped := true }
      ∧ (getFile (runIteration taskB 0 ((fun _ : ℕ => specOk) 0)).1 0).status
          = TaskStatus.completed) := by
  have H := c5_stop regB taskB (fun _ => specOk) (fun i => i == 1) 0 0
  exact ⟨H.1, H.2.1, H.2.2.1, H.2.2.2.1,
    H.2.2.2.2.1 { taskB with stopped := true } rfl,
    (H.2.2.2.2.2 taskB (by decide) rfl rfl (by decide) (by decide)).1 (by decide)⟩
